import Mathlib

/-!
Shallow embedding of `search_aa_award_flights.py`: the record normalizer
(`process_flights`), the criteria filter (`filter_flights`), and the driver
loop's bookkeeping and final composite sort. Strings are modelled as Lean
`String`s, wall-clock times as minutes since midnight (`Nat`), mileage values
as `ℚ` (Python floats; all values appearing here are exactly representable),
and Python exceptions as `Option` failure.
-/

namespace AASearch

/-- ASCII lower-casing of one character, as Python `str.lower` acts on the
ASCII labels that occur in cabin names. -/
def asciiLower (c : Char) : Char :=
  if 65 ≤ c.toNat ∧ c.toNat ≤ 90 then Char.ofNat (c.toNat + 32) else c

/-- Python `str.lower` restricted to ASCII text. -/
def lowerStr (s : String) : String :=
  ⟨s.data.map asciiLower⟩

/-- `leadsWith needle hay`: `needle` is an initial segment of `hay`. -/
def leadsWith : List Char → List Char → Bool
  | [], _ => true
  | _ :: _, [] => false
  | a :: as, b :: bs => a = b && leadsWith as bs

/-- `hasSub needle hay`: `needle` occurs contiguously in `hay`
(Python's `needle in hay` on strings). -/
def hasSub (needle : List Char) : List Char → Bool
  | [] => needle.isEmpty
  | c :: t => leadsWith needle (c :: t) || hasSub needle t

/-- Cabin-label canonicalization from `process_flights`: lower-case the label,
then test `"main"`, `"first"`, `"business"` as substrings in that order; an
unrecognized label stays as its lower-cased self. -/
def canonCabin (cabin : String) : String :=
  let c := lowerStr cabin
  if hasSub "main".data c.data then "main"
  else if hasSub "first".data c.data then "first"
  else if hasSub "business".data c.data then "business"
  else c

/-- `miles.replace("K", "")` from `process_flights`: delete every occurrence
of the capital letter `K`. -/
def removeK (s : String) : String :=
  ⟨s.data.filter (fun c => !(c = 'K'))⟩

/-- Numeric value of a list of ASCII digit characters (most significant first). -/
def digitsVal (ds : List Char) : Nat :=
  ds.foldl (fun n c => n * 10 + (c.toNat - 48)) 0

/-- `c` is an ASCII digit. -/
def isDig (c : Char) : Bool :=
  48 ≤ c.toNat && c.toNat ≤ 57

/-- Python `float(s)` on a plain unsigned decimal literal: digits with at most
one decimal point, at least one digit overall.  The mantissa and a power-of-ten
scale are accumulated left to right.  Exponents, specials (`inf`, `nan`),
underscores and surrounding whitespace never occur in the mileage strings this
models and are out of scope. -/
def parseDecCore : List Char → Nat → Nat → Bool → Bool → Option ℚ
  | [], mant, scale, seenDigit, seenDot =>
    if seenDigit then some (mkRat mant (10 ^ (if seenDot then scale else 0))) else none
  | c :: rest, mant, scale, seenDigit, seenDot =>
    if isDig c then
      parseDecCore rest (mant * 10 + (c.toNat - 48)) (if seenDot then scale + 1 else scale)
        true seenDot
    else if c = '.' then
      if seenDot then none else parseDecCore rest mant scale seenDigit true
    else none

/-- Python `float(s)` on plain decimal literals, with an optional leading sign. -/
def parseFloat (s : String) : Option ℚ :=
  match s.data with
  | '+' :: rest => parseDecCore rest 0 0 false false
  | '-' :: rest => (parseDecCore rest 0 0 false false).map (fun q => -q)
  | cs => parseDecCore cs 0 0 false false

/-- `re.findall(r"\d+", ·)` followed by `int(·)` on each match: the values of
the maximal digit runs, left to right.  `acc` holds the value of the digit run
currently being read, if any. -/
def digitRunsAux : List Char → Option Nat → List Nat
  | [], none => []
  | [], some n => [n]
  | c :: cs, none =>
    if isDig c then digitRunsAux cs (some (c.toNat - 48)) else digitRunsAux cs none
  | c :: cs, some n =>
    if isDig c then digitRunsAux cs (some (n * 10 + (c.toNat - 48)))
    else n :: digitRunsAux cs none

/-- All integer substrings of `s`, as scanned by `re.findall(r"\d+", s)`. -/
def findAllInts (s : String) : List Nat :=
  digitRunsAux s.data none

/-- Duration normalization from `process_flights`:
`int(parts[0]) * 60 + int(parts[1])` over the integer substrings, failing when
fewer than two are found (Python raises there). -/
def durationMinutes (s : String) : Option Nat :=
  match findAllInts s with
  | a :: b :: _ => some (a * 60 + b)
  | _ => none

/-- The `%I` directive of `strptime`: `1[0-2] | 0[1-9] | [1-9]`, alternatives
tried in that order (codes: `'0'` = 48 … `'9'` = 57).  Returns the hour (1–12)
and the unread remainder. -/
def parseHour12 : List Char → Option (Nat × List Char)
  | [] => none
  | [c] => if 49 ≤ c.toNat ∧ c.toNat ≤ 57 then some (c.toNat - 48, []) else none
  | c :: d :: rest =>
    if c.toNat = 49 then
      (if 48 ≤ d.toNat ∧ d.toNat ≤ 50 then some (10 + (d.toNat - 48), rest)
       else some (1, d :: rest))
    else if c.toNat = 48 then
      (if 49 ≤ d.toNat ∧ d.toNat ≤ 57 then some (d.toNat - 48, rest) else none)
    else if 49 ≤ c.toNat ∧ c.toNat ≤ 57 then some (c.toNat - 48, d :: rest)
    else none

/-- The `%M` directive of `strptime`: `[0-5]\d | \d`.  Returns the minute
(0–59) and the unread remainder. -/
def parseMinute : List Char → Option (Nat × List Char)
  | c :: d :: rest =>
    if (48 ≤ c.toNat ∧ c.toNat ≤ 53) ∧ (48 ≤ d.toNat ∧ d.toNat ≤ 57) then
      some ((c.toNat - 48) * 10 + (d.toNat - 48), rest)
    else if 48 ≤ c.toNat ∧ c.toNat ≤ 57 then some (c.toNat - 48, d :: rest)
    else none
  | [c] =>
    if 48 ≤ c.toNat ∧ c.toNat ≤ 57 then some (c.toNat - 48, []) else none
  | [] => none

/-- The literal `:` of the format string. -/
def expectColon : List Char → Option (List Char)
  | c :: rest => if c = ':' then some rest else none
  | [] => none

/-- The blank in the format string, compiled by `strptime` to `\s+`. -/
def skipWs : List Char → Option (List Char)
  | c :: rest =>
    if c.isWhitespace then some (rest.dropWhile Char.isWhitespace) else none
  | [] => none

/-- The `%p` directive of `strptime`: `AM`/`PM`, case-insensitively.
Returns `true` for PM and the unread remainder. -/
def parseAmPm : List Char → Option (Bool × List Char)
  | a :: m :: rest =>
    if (a = 'A' ∨ a = 'a') ∧ (m = 'M' ∨ m = 'm') then some (false, rest)
    else if (a = 'P' ∨ a = 'p') ∧ (m = 'M' ∨ m = 'm') then some (true, rest)
    else none
  | _ => none

/-- 12-hour clock to 24-hour clock, as `strptime` combines `%I` with `%p`. -/
def hour24 (h : Nat) (pm : Bool) : Nat :=
  if pm then (if h = 12 then 12 else h + 12) else (if h = 12 then 0 else h)

/-- `datetime.strptime(s, "%I:%M %p").time()` from `process_flights`, the
resulting wall-clock time expressed in minutes since midnight.  The whole
string must be consumed (`strptime` rejects unconverted trailing data). -/
def parseTime12 (s : String) : Option Nat :=
  match parseHour12 s.data with
  | none => none
  | some (h, r1) =>
    match expectColon r1 with
    | none => none
    | some r2 =>
      match parseMinute r2 with
      | none => none
      | some (m, r3) =>
        match skipWs r3 with
        | none => none
        | some r4 =>
          match parseAmPm r4 with
          | none => none
          | some (pm, r5) =>
            if r5 = [] then some (hour24 h pm * 60 + m) else none

/-- `int(s.split(" ")[0])` from `process_flights` for the non-negative integer
tokens that occur in stop-count text: the characters before the first blank
must be one or more digits. -/
def parseStops (s : String) : Option Nat :=
  let tok := s.data.takeWhile (fun c => !(c = ' '))
  if tok ≠ [] ∧ tok.all isDig then some (digitsVal tok) else none

/-- Python `dict` assignment `d[k] = v` on an insertion-ordered association
list: an existing key keeps its position and gets the new value, a new key is
appended at the end. -/
def dictInsert (k : String) (v : ℚ) : List (String × ℚ) → List (String × ℚ)
  | [] => [(k, v)]
  | (k', v') :: rest => if k' = k then (k', v) :: rest else (k', v') :: dictInsert k v rest

/-- The mileage loop of `process_flights`, with `acc` the dictionary built so
far: canonicalize each label, strip the `K` markers, parse the float, and
store under the canonical key (later pairs overwrite earlier ones, as in the
Python `dict`); a parse failure fails the record. -/
def processMilesFrom (acc : List (String × ℚ)) :
    List (String × String) → Option (List (String × ℚ))
  | [] => some acc
  | p :: rest =>
    match parseFloat (removeK p.2) with
    | none => none
    | some v => processMilesFrom (dictInsert (canonCabin p.1) v acc) rest

/-- The mileage loop of `process_flights` over all (label, mileage) pairs,
starting from the empty dictionary. -/
def processMiles (pairs : List (String × String)) : Option (List (String × ℚ)) :=
  processMilesFrom [] pairs

/-- Raw per-flight fields handed to the normalizer by the scraper. -/
structure RawFlightFields where
  origin : String
  destination : String
  depart_time : String
  arrive_time : String
  duration : String
  num_stops : String
  num_miles : List (String × String)
  deriving DecidableEq

/-- A normalized flight record.  `num_miles` maps canonical cabin keys to
thousands of miles; `date` is absent (modelled `""`) until the driver tags the
record with its query date. -/
structure FlightRecord where
  origin : String
  destination : String
  depart_time : Nat
  arrive_time : Nat
  duration : Nat
  num_stops : Nat
  num_miles : List (String × ℚ)
  date : String
  deriving DecidableEq

/-- The per-record body of the loop in `process_flights`, fields handled in
the source's order; any parse failure fails the whole record, as the Python
exception does. -/
def processFlight (flight : RawFlightFields) : Option FlightRecord :=
  match parseTime12 flight.depart_time with
  | none => none
  | some depart =>
    match parseTime12 flight.arrive_time with
    | none => none
    | some arrive =>
      match durationMinutes flight.duration with
      | none => none
      | some dur =>
        match parseStops flight.num_stops with
        | none => none
        | some stops =>
          match processMiles flight.num_miles with
          | none => none
          | some miles =>
            some
              { origin := flight.origin
                destination := flight.destination
                depart_time := depart
                arrive_time := arrive
                duration := dur
                num_stops := stops
                num_miles := miles
                date := "" }

/-- The sort key comparison of `processed_flights.sort(key=lambda x: x["depart_time"])`. -/
def departLe (a b : FlightRecord) : Bool :=
  decide (a.depart_time ≤ b.depart_time)

/-- `process_flights`: normalize every raw record (any failure aborts the
whole call, as the Python exception does), then stable-sort ascending by
departure time (`list.sort` is stable; `mergeSort` is the stable sort of the
embedding). -/
def process_flights (flights : List RawFlightFields) : Option (List FlightRecord) :=
  match flights.mapM processFlight with
  | none => none
  | some processed => some (processed.mergeSort departLe)

/-- `flight.get("num_miles_main", 10000000)` from `filter_flights`: the
main-cabin mileage, with the sentinel for records that lack one. -/
def getMilesMain (f : FlightRecord) : ℚ :=
  match f.num_miles.lookup "main" with
  | some v => v
  | none => 10000000

/-- The five-way conjunction tested by `filter_flights` on one record, all
bounds inclusive. -/
def passesFilter (max_miles_main : ℚ) (max_duration : Nat)
    (depart_time_range arrive_time_range : Nat × Nat) (max_stops : Nat)
    (flight : FlightRecord) : Prop :=
  getMilesMain flight ≤ max_miles_main
    ∧ flight.duration ≤ max_duration
    ∧ flight.depart_time ≥ depart_time_range.1
    ∧ flight.depart_time ≤ depart_time_range.2
    ∧ flight.arrive_time ≥ arrive_time_range.1
    ∧ flight.arrive_time ≤ arrive_time_range.2
    ∧ flight.num_stops ≤ max_stops

instance (max_miles_main : ℚ) (max_duration : Nat)
    (depart_time_range arrive_time_range : Nat × Nat) (max_stops : Nat) :
    DecidablePred (passesFilter max_miles_main max_duration depart_time_range
      arrive_time_range max_stops) := by
  intro flight
  unfold passesFilter
  infer_instance

/-- `filter_flights`: keep, in order, the flights passing all five threshold
checks; written as the source's accumulate-and-append loop. -/
def filter_flights (flights : List FlightRecord) (max_miles_main : ℚ)
    (max_duration : Nat) (depart_time_range : Nat × Nat)
    (arrive_time_range : Nat × Nat) (max_stops : Nat) : List FlightRecord :=
  flights.foldl
    (fun acc flight =>
      if passesFilter max_miles_main max_duration depart_time_range
          arrive_time_range max_stops flight then
        acc ++ [flight]
      else acc)
    []

/-- A (departure date, origin, destination) query combination. -/
abbrev Combo := String × String × String

/-- `itertools.product(depart_date, origin, destination)`: dates outermost,
destinations fastest. -/
def allCombos (dates origins dests : List String) : List Combo :=
  dates.flatMap (fun dt => origins.flatMap (fun o => dests.map (fun d => (dt, o, d))))

/-- The outcome of `scrape_flight_page` for one combination: any exception
(fetch, render or normalization) on the one hand, a list of already-normalized
records on the other. -/
inductive ScrapeResult where
  | error
  | ok (flights : List FlightRecord)
  deriving DecidableEq

/-- The four accumulators owned by the `__main__` loop. -/
structure DriverState where
  all_flights : List FlightRecord
  all_filtered_flights : List FlightRecord
  error_combos : List Combo
  missing_combos : List Combo
  deriving DecidableEq

/-- The empty accumulators the loop starts from. -/
def initState : DriverState := ⟨[], [], [], []⟩

/-- `flight["date"] = dt` applied to every record of a batch. -/
def tagDate (dt : String) (fs : List FlightRecord) : List FlightRecord :=
  fs.map (fun f => { f with date := dt })

/-- One iteration of the `__main__` loop, given the scrape outcome for the
combination: exceptions go to `error_combos`, empty batches to
`missing_combos`, and a non-empty batch is date-tagged, accumulated, filtered,
and its matches accumulated. -/
def driverStep (max_miles_main : ℚ) (max_duration : Nat)
    (depart_time_range arrive_time_range : Nat × Nat) (max_stops : Nat)
    (s : DriverState) (combo : Combo) (result : ScrapeResult) : DriverState :=
  match result with
  | .error => { s with error_combos := s.error_combos ++ [combo] }
  | .ok flights =>
    if flights = [] then { s with missing_combos := s.missing_combos ++ [combo] }
    else
      let tagged := tagDate combo.1 flights
      let filtered := filter_flights tagged max_miles_main max_duration
        depart_time_range arrive_time_range max_stops
      let s1 := { s with all_flights := s.all_flights ++ tagged }
      if filtered = [] then s1
      else { s1 with all_filtered_flights := s1.all_filtered_flights ++ filtered }

/-- The whole `__main__` loop over a list of combinations, with `scrape`
giving each combination's outcome. -/
def driverRun (max_miles_main : ℚ) (max_duration : Nat)
    (depart_time_range arrive_time_range : Nat × Nat) (max_stops : Nat)
    (scrape : Combo → ScrapeResult) (combos : List Combo)
    (s : DriverState) : DriverState :=
  combos.foldl
    (fun st c =>
      driverStep max_miles_main max_duration depart_time_range arrive_time_range
        max_stops st c (scrape c))
    s

/-- Python string `<`: lexicographic comparison by code point. -/
def strLt : List Char → List Char → Bool
  | [], [] => false
  | [], _ :: _ => true
  | _ :: _, [] => false
  | a :: as, b :: bs =>
    if a.toNat < b.toNat then true
    else if b.toNat < a.toNat then false
    else strLt as bs

/-- The comparison induced by the final sort's key
`lambda x: (x["origin"], x["date"], x["depart_time"])` — Python tuple order on
(string, string, time). -/
def compositeLe (a b : FlightRecord) : Bool :=
  strLt a.origin.data b.origin.data
    || (decide (a.origin.data = b.origin.data)
        && (strLt a.date.data b.date.data
            || (decide (a.date.data = b.date.data)
                && decide (a.depart_time ≤ b.depart_time))))

/-- The post-loop global sort: `all_filtered_flights` is re-sorted by the
composite key (`sorted` is a stable sort), everything else is untouched. -/
def finalizeRun (s : DriverState) : DriverState :=
  { s with all_filtered_flights := s.all_filtered_flights.mergeSort compositeLe }

/-- The spec's words, for comparison with `removeK`: strip one trailing `K`
marker, leaving the rest of the string alone. -/
def stripTrailingK (s : String) : String :=
  if s.data.getLast? = some 'K' then ⟨s.data.dropLast⟩ else s

/-- The mileage-string interpretation exactly as the spec's words state it:
strip a trailing `K` marker, then parse the remainder as a float. -/
def specTrailingKValue (s : String) : Option ℚ :=
  parseFloat (stripTrailingK s)

/-- Spec-side description of which raw mileage string a canonical bucket ends
up holding: the string of the last pair whose canonicalized label is that key
(later pairs win). -/
def lastMilesStr (k : String) : List (String × String) → Option String
  | [] => none
  | p :: rest =>
    match lastMilesStr k rest with
    | some s => some s
    | none => if canonCabin p.1 = k then some p.2 else none

/-- A concrete record with no main-cabin fare (business cabin only). -/
def recNoMain : FlightRecord :=
  { origin := "JFK", destination := "LAX", depart_time := 600, arrive_time := 800,
    duration := 120, num_stops := 0, num_miles := [("business", 30)], date := "" }

/-- A concrete record that passes any reasonable filter. -/
def recCheap : FlightRecord :=
  { origin := "JFK", destination := "LAX", depart_time := 540, arrive_time := 900,
    duration := 360, num_stops := 0, num_miles := [("main", 15)], date := "" }

/-- Concrete raw records for exercising the normalizer: `rawA` and `rawB`
share a departure time, `rawC` departs earlier. -/
def rawA : RawFlightFields :=
  { origin := "JFK", destination := "LAX", depart_time := "8:00 AM",
    arrive_time := "11:00 AM", duration := "6h 0m", num_stops := "0 stops",
    num_miles := [] }

/-- Second raw record, same departure time as `rawA`. -/
def rawB : RawFlightFields :=
  { origin := "JFK", destination := "SFO", depart_time := "8:00 AM",
    arrive_time := "11:30 AM", duration := "6h 30m", num_stops := "1 stop",
    num_miles := [] }

/-- Third raw record, departing earlier than `rawA` and `rawB`. -/
def rawC : RawFlightFields :=
  { origin := "JFK", destination := "ORD", depart_time := "7:30 AM",
    arrive_time := "9:45 AM", duration := "2h 15m", num_stops := "0 stops",
    num_miles := [] }

/-- The normalized form of `rawA`. -/
def procA : FlightRecord := ⟨"JFK", "LAX", 480, 660, 360, 0, [], ""⟩

/-- The normalized form of `rawB`. -/
def procB : FlightRecord := ⟨"JFK", "SFO", 480, 690, 390, 1, [], ""⟩

/-- The normalized form of `rawC`. -/
def procC : FlightRecord := ⟨"JFK", "ORD", 450, 585, 135, 0, [], ""⟩

/-- A concrete scrape outcome function for exercising the driver loop:
destination "ERR" fails, destination "EMP" returns an empty batch, anything
else returns one cheap record. -/
def scrape0 : Combo → ScrapeResult := fun c =>
  if c.2.2 = "ERR" then .error
  else if c.2.2 = "EMP" then .ok []
  else .ok [recCheap]

/-- The source's accumulate-and-append loop over a list is `List.filter`. -/
theorem foldl_if_append_eq_filter {α : Type} (P : α → Prop) [DecidablePred P]
    (l : List α) (acc : List α) :
    l.foldl (fun acc a => if P a then acc ++ [a] else acc) acc
      = acc ++ l.filter (fun a => decide (P a)) := by
  induction l generalizing acc with
  | nil => simp
  | cons a l ih =>
    by_cases h : P a
    · simp [List.foldl_cons, h, ih, List.filter_cons]
    · simp [List.foldl_cons, h, ih, List.filter_cons]

/-- `filter_flights` is `List.filter` with the five-way predicate. -/
theorem filter_flights_eq_filter (flights : List FlightRecord) (mm : ℚ) (md : Nat)
    (dr ar : Nat × Nat) (ms : Nat) :
    filter_flights flights mm md dr ar ms
      = flights.filter (fun f => decide (passesFilter mm md dr ar ms f)) := by
  unfold filter_flights
  simpa using foldl_if_append_eq_filter (passesFilter mm md dr ar ms) flights []

/-- Membership in the filter output. -/
theorem mem_filter_flights (flights : List FlightRecord) (mm : ℚ) (md : Nat)
    (dr ar : Nat × Nat) (ms : Nat) {f : FlightRecord} :
    f ∈ filter_flights flights mm md dr ar ms
      ↔ f ∈ flights ∧ passesFilter mm md dr ar ms f := by
  rw [filter_flights_eq_filter]
  simp [List.mem_filter]

/-- A record with no `main` bucket gets the sentinel mileage. -/
theorem getMilesMain_of_lookup_none {f : FlightRecord}
    (h : f.num_miles.lookup "main" = none) : getMilesMain f = 10000000 := by
  unfold getMilesMain
  rw [h]

/-- C1: for every input sequence and configuration, `filter_flights` returns
exactly the subsequence of the input, in original order, of the records
satisfying all five predicates, every bound inclusive. -/
theorem C1_filter_exact_subsequence (flights : List FlightRecord) (mm : ℚ)
    (md : Nat) (dr ar : Nat × Nat) (ms : Nat) :
    filter_flights flights mm md dr ar ms
      = flights.filter (fun f => decide (passesFilter mm md dr ar ms f))
    ∧ (filter_flights flights mm md dr ar ms).Sublist flights
    ∧ ∀ f, f ∈ filter_flights flights mm md dr ar ms
        ↔ f ∈ flights
          ∧ getMilesMain f ≤ mm ∧ f.duration ≤ md
          ∧ dr.1 ≤ f.depart_time ∧ f.depart_time ≤ dr.2
          ∧ ar.1 ≤ f.arrive_time ∧ f.arrive_time ≤ ar.2
          ∧ f.num_stops ≤ ms := by
  refine ⟨filter_flights_eq_filter flights mm md dr ar ms, ?_, ?_⟩
  · rw [filter_flights_eq_filter]
    exact List.filter_sublist _
  · intro f
    rw [mem_filter_flights flights mm md dr ar ms]
    unfold passesFilter
    simp [ge_iff_le]

/-- C9: filtering an already-filtered list with the same configuration
returns it unchanged. -/
theorem C9_filter_idempotent (flights : List FlightRecord) (mm : ℚ) (md : Nat)
    (dr ar : Nat × Nat) (ms : Nat) :
    filter_flights (filter_flights flights mm md dr ar ms) mm md dr ar ms
      = filter_flights flights mm md dr ar ms := by
  rw [filter_flights_eq_filter, filter_flights_eq_filter flights,
    List.filter_filter]
  simp

/-- C2 counterexample: the missing-main sentinel is itself the finite value
10,000,000, so with `max_miles_main = 10000000` a record with no main-cabin
fare is NOT excluded — the claim's "excluded by any finite max" fails here. -/
theorem C2_cex_sentinel_max_admits_no_main :
    recNoMain.num_miles.lookup "main" = none
    ∧ filter_flights [recNoMain] 10000000 200 (0, 1439) (0, 1439) 1 = [recNoMain] := by
  exact ⟨rfl, by decide⟩

/-- C2 (amended): a record lacking a main-cabin fare is treated as costing the
sentinel 10,000,000 without error, hence is excluded by every configured
`max_miles_main` below 10,000,000. -/
theorem C2_no_main_excluded_below_sentinel (flights : List FlightRecord)
    (mm : ℚ) (md : Nat) (dr ar : Nat × Nat) (ms : Nat) (f : FlightRecord)
    (hmain : f.num_miles.lookup "main" = none) (hmm : mm < 10000000) :
    f ∉ filter_flights flights mm md dr ar ms := by
  intro hf
  have h := ((mem_filter_flights flights mm md dr ar ms).mp hf).2.1
  rw [getMilesMain_of_lookup_none hmain] at h
  exact absurd (lt_of_le_of_lt h hmm) (lt_irrefl _)

/-- Witness for the amended C2 at a concrete record and configuration. -/
theorem C2_no_main_excluded_below_sentinel_witness :
    recNoMain.num_miles.lookup "main" = none
    ∧ (20 : ℚ) < 10000000
    ∧ recNoMain ∉ filter_flights [recNoMain] 20 200 (0, 1439) (0, 1439) 1 :=
  ⟨rfl, by decide,
    C2_no_main_excluded_below_sentinel [recNoMain] 20 200 (0, 1439) (0, 1439) 1
      recNoMain rfl (by decide)⟩

/-- C10: the sentinel for a record lacking a main-cabin fare is the concrete
finite value 10,000,000, so any configuration with `max_miles_main` at least
10,000,000 admits such a record whenever the other four predicates hold. -/
theorem C10_sentinel_is_ten_million (f : FlightRecord)
    (flights : List FlightRecord) (mm : ℚ) (md : Nat) (dr ar : Nat × Nat) (ms : Nat)
    (hmain : f.num_miles.lookup "main" = none) (hmm : 10000000 ≤ mm)
    (hdur : f.duration ≤ md) (hdep1 : dr.1 ≤ f.depart_time)
    (hdep2 : f.depart_time ≤ dr.2) (harr1 : ar.1 ≤ f.arrive_time)
    (harr2 : f.arrive_time ≤ ar.2) (hst : f.num_stops ≤ ms) (hf : f ∈ flights) :
    getMilesMain f = 10000000 ∧ f ∈ filter_flights flights mm md dr ar ms := by
  have hs := getMilesMain_of_lookup_none hmain
  refine ⟨hs, (mem_filter_flights flights mm md dr ar ms).mpr ⟨hf, ?_⟩⟩
  exact ⟨by rw [hs]; exact hmm, hdur, hdep1, hdep2, harr1, harr2, hst⟩

/-- Witness for C10 at a concrete record and configuration. -/
theorem C10_sentinel_is_ten_million_witness :
    getMilesMain recNoMain = 10000000
    ∧ recNoMain ∈ filter_flights [recNoMain] 10000000 200 (0, 1439) (0, 1439) 1 :=
  C10_sentinel_is_ten_million recNoMain [recNoMain] 10000000 200 (0, 1439)
    (0, 1439) 1 rfl (le_refl _) (by decide) (by decide) (by decide) (by decide)
    (by decide) (by decide) (List.mem_singleton.mpr rfl)

/-- The `%I` directive only produces hours 1–12. -/
theorem parseHour12_bounds : ∀ cs hh r, parseHour12 cs = some (hh, r) → 1 ≤ hh ∧ hh ≤ 12 := by
  intro cs hh r e
  unfold parseHour12 at e
  split at e <;> (try split_ifs at e) <;>
    first
      | (injection e with e'
         injection e' with e1 _
         omega)
      | exact absurd e (by simp)

/-- The `%M` directive only produces minutes 0–59. -/
theorem parseMinute_bounds : ∀ cs m r, parseMinute cs = some (m, r) → m ≤ 59 := by
  intro cs m r e
  unfold parseMinute at e
  split at e <;> (try split_ifs at e) <;>
    first
      | (injection e with e'
         injection e' with e1 _
         omega)
      | exact absurd e (by simp)

/-- The 24-hour conversion keeps valid 12-hour inputs below 24. -/
theorem hour24_lt (hh : Nat) (pm : Bool) (h1 : 1 ≤ hh) (h2 : hh ≤ 12) :
    hour24 hh pm < 24 := by
  unfold hour24
  split_ifs <;> omega

/-- Every successful `parseTime12` result decomposes as a 12-hour clock
reading with an AM/PM flag, and is a valid minute-of-day. -/
theorem parseTime12_sound (s : String) (t : Nat) (h : parseTime12 s = some t) :
    ∃ hh m pm, 1 ≤ hh ∧ hh ≤ 12 ∧ m ≤ 59
      ∧ t = hour24 hh pm * 60 + m ∧ t ≤ 1439 := by
  unfold parseTime12 at h
  split at h
  · exact absurd h (by simp)
  case _ hh r1 e1 =>
    split at h
    · exact absurd h (by simp)
    case _ r2 e2 =>
      split at h
      · exact absurd h (by simp)
      case _ m r3 e3 =>
        split at h
        · exact absurd h (by simp)
        case _ r4 e4 =>
          split at h
          · exact absurd h (by simp)
          case _ pm r5 e5 =>
            split at h
            · injection h with h'
              obtain ⟨hb1, hb2⟩ := parseHour12_bounds _ _ _ e1
              have hm := parseMinute_bounds _ _ _ e3
              refine ⟨hh, m, pm, hb1, hb2, hm, h'.symm, ?_⟩
              have := hour24_lt hh pm hb1 hb2
              omega
            · exact absurd h (by simp)

/-- C4: depart/arrive times are parsed as a 12-hour clock with AM/PM suffix
("1:05 PM" is 13:05, "12:00 AM" is 00:00, both in minutes since midnight), a
non-matching text fails, and the failure propagates: the whole record fails
to normalize. -/
theorem C4_time_parsing (s : String) (t : Nat) (raw raw' : RawFlightFields)
    (hs : parseTime12 s = some t)
    (hdep : parseTime12 raw.depart_time = none)
    (harr : parseTime12 raw'.arrive_time = none) :
    (∃ hh m pm, 1 ≤ hh ∧ hh ≤ 12 ∧ m ≤ 59
      ∧ t = hour24 hh pm * 60 + m ∧ t ≤ 1439)
    ∧ parseTime12 "1:05 PM" = some (13 * 60 + 5)
    ∧ parseTime12 "12:00 AM" = some 0
    ∧ parseTime12 "1:05" = none
    ∧ parseTime12 "13:05 PM" = none
    ∧ processFlight raw = none
    ∧ processFlight raw' = none
    ∧ (∀ rest : List RawFlightFields, process_flights (raw :: rest) = none) := by
  have hpf : processFlight raw = none := by
    unfold processFlight
    rw [hdep]
  refine ⟨parseTime12_sound s t hs, rfl, rfl, rfl, rfl, hpf, ?_, ?_⟩
  · unfold processFlight
    rw [harr]
    cases parseTime12 raw'.depart_time <;> rfl
  · intro rest
    unfold process_flights
    rw [List.mapM_cons, hpf]
    rfl

/-- Witness for C4 at "2:30 PM" and a malformed depart/arrive text. -/
theorem C4_time_parsing_witness :
    (∃ hh m pm, 1 ≤ hh ∧ hh ≤ 12 ∧ m ≤ 59
      ∧ 870 = hour24 hh pm * 60 + m ∧ 870 ≤ 1439)
    ∧ parseTime12 "1:05 PM" = some (13 * 60 + 5)
    ∧ parseTime12 "12:00 AM" = some 0
    ∧ parseTime12 "1:05" = none
    ∧ parseTime12 "13:05 PM" = none
    ∧ processFlight { rawA with depart_time := "830 AM" } = none
    ∧ processFlight { rawA with arrive_time := "eleven PM" } = none
    ∧ process_flights [{ rawA with depart_time := "830 AM" }] = none :=
  have h := C4_time_parsing "2:30 PM" 870 { rawA with depart_time := "830 AM" }
    { rawA with arrive_time := "eleven PM" } rfl rfl rfl
  ⟨h.1, h.2.1, h.2.2.1, h.2.2.2.1, h.2.2.2.2.1, h.2.2.2.2.2.1, h.2.2.2.2.2.2.1,
    h.2.2.2.2.2.2.2 []⟩

/-- C3: duration text is normalized by scanning all integer substrings and
taking `first * 60 + second`; with fewer than two integers the duration (and
with it the whole record) fails to normalize. -/
theorem C3_duration_parsing (s s' : String) (a b : Nat) (rest : List Nat)
    (raw : RawFlightFields)
    (hs : findAllInts s = a :: b :: rest)
    (hs' : (findAllInts s').length < 2)
    (hraw : (findAllInts raw.duration).length < 2) :
    durationMinutes s = some (a * 60 + b)
    ∧ durationMinutes s' = none
    ∧ durationMinutes "5h 30m" = some 330
    ∧ durationMinutes "5 hr 30 min" = some 330
    ∧ processFlight raw = none := by
  have hnone : ∀ u : String, (findAllInts u).length < 2 → durationMinutes u = none := by
    intro u hu
    unfold durationMinutes
    cases e : findAllInts u with
    | nil => rfl
    | cons x xs =>
      cases xs with
      | nil => rfl
      | cons y ys =>
        rw [e] at hu
        simp at hu
        omega
  refine ⟨?_, hnone s' hs', rfl, rfl, ?_⟩
  · unfold durationMinutes
    rw [hs]
  · unfold processFlight
    cases parseTime12 raw.depart_time with
    | none => rfl
    | some d =>
      cases parseTime12 raw.arrive_time with
      | none => rfl
      | some a' =>
        rw [hnone raw.duration hraw]

/-- Witness for C3 at concrete duration texts. -/
theorem C3_duration_parsing_witness :
    durationMinutes "7h 5m" = some 425
    ∧ durationMinutes "7h" = none
    ∧ durationMinutes "5h 30m" = some 330
    ∧ durationMinutes "5 hr 30 min" = some 330
    ∧ processFlight { rawA with duration := "7h" } = none :=
  C3_duration_parsing "7h 5m" "7h" 7 5 [] { rawA with duration := "7h" }
    rfl (by decide) (by decide)

/-- Inserting a key makes it present with the new value. -/
theorem lookup_dictInsert_self (k : String) (v : ℚ) (l : List (String × ℚ)) :
    (dictInsert k v l).lookup k = some v := by
  induction l with
  | nil => simp [dictInsert, List.lookup]
  | cons p rest ih =>
    obtain ⟨k', v'⟩ := p
    by_cases h : k' = k
    · subst h
      simp [dictInsert, List.lookup]
    · have hb : (k == k') = false := beq_eq_false_iff_ne.mpr (Ne.symm h)
      simp [dictInsert, h, List.lookup, hb, ih]

/-- Inserting one key leaves every other key's binding alone. -/
theorem lookup_dictInsert_ne (k k' : String) (h : k' ≠ k) (v : ℚ)
    (l : List (String × ℚ)) :
    (dictInsert k v l).lookup k' = l.lookup k' := by
  have hb : (k' == k) = false := beq_eq_false_iff_ne.mpr h
  induction l with
  | nil => simp [dictInsert, List.lookup, hb]
  | cons p rest ih =>
    obtain ⟨k'', v''⟩ := p
    by_cases h2 : k'' = k
    · subst h2
      simp [dictInsert, List.lookup, hb]
    · by_cases h3 : k' = k''
      · subst h3
        simp [dictInsert, h2, List.lookup]
      · have hb3 : (k' == k'') = false := beq_eq_false_iff_ne.mpr h3
        simp [dictInsert, h2, List.lookup, hb3, ih]

/-- Unfolding equation for `lastMilesStr`. -/
theorem lastMilesStr_cons (k : String) (p : String × String)
    (ps : List (String × String)) :
    lastMilesStr k (p :: ps)
      = match lastMilesStr k ps with
        | some s => some s
        | none => if canonCabin p.1 = k then some p.2 else none := rfl

/-- What one bucket of the mileage loop holds, generalized over the
accumulator: the parsed value of the last pair canonicalizing to the key, or
the accumulator's binding when no pair does. -/
theorem processMilesFrom_lookup (pairs : List (String × String))
    (acc m : List (String × ℚ)) (k : String)
    (h : processMilesFrom acc pairs = some m) :
    m.lookup k
      = match lastMilesStr k pairs with
        | some s => parseFloat (removeK s)
        | none => acc.lookup k := by
  induction pairs generalizing acc with
  | nil =>
    unfold processMilesFrom at h
    injection h with h'
    subst h'
    rfl
  | cons p ps ih =>
    unfold processMilesFrom at h
    cases e : parseFloat (removeK p.2) with
    | none =>
      simp only [e] at h
      exact absurd h (by simp)
    | some v =>
      simp only [e] at h
      have hih := ih (dictInsert (canonCabin p.1) v acc) h
      rw [hih, lastMilesStr_cons]
      cases e2 : lastMilesStr k ps with
      | some s => simp
      | none =>
        by_cases hk : canonCabin p.1 = k
        · subst hk
          simp [lookup_dictInsert_self, e]
        · simp [hk, lookup_dictInsert_ne (canonCabin p.1) k (Ne.symm hk) v acc]

/-- C5 counterexample: on the mileage string "2K0" the code removes every
`K` (`replace("K", "")`) and parses 20.0, while the claim's "strip a trailing
K marker" leaves "2K0" unparseable. -/
theorem C5_cex_inner_K_not_trailing :
    processMiles [("Main Cabin", "2K0")] = some [("main", 20)]
    ∧ specTrailingKValue "2K0" = none
    ∧ parseFloat (removeK "2K0") ≠ specTrailingKValue "2K0" := by
  refine ⟨by decide, by decide, by decide⟩

/-- C5 (amended): every occurrence of `K` (case-sensitive) is removed from the
mileage string and the remainder parsed as a float in thousands of miles;
labels canonicalize by case-insensitive substring match against main, then
first, then business, else the lower-cased label verbatim; later pairs
overwrite earlier ones under the same canonical key; "Main Cabin"/"20K"
gives a main bucket of 20.0. -/
theorem C5_mileage_buckets (pairs : List (String × String))
    (m : List (String × ℚ)) (k label : String) (l1 l2 : List Char)
    (hm : processMiles pairs = some m) :
    (m.lookup k
      = match lastMilesStr k pairs with
        | some s => parseFloat (removeK s)
        | none => none)
    ∧ removeK ⟨l1 ++ 'K' :: l2⟩ = removeK ⟨l1 ++ l2⟩
    ∧ removeK "20k" = "20k"
    ∧ (hasSub "main".data (lowerStr label).data = true → canonCabin label = "main")
    ∧ (hasSub "main".data (lowerStr label).data = false
        → hasSub "first".data (lowerStr label).data = true
        → canonCabin label = "first")
    ∧ (hasSub "main".data (lowerStr label).data = false
        → hasSub "first".data (lowerStr label).data = false
        → hasSub "business".data (lowerStr label).data = true
        → canonCabin label = "business")
    ∧ (hasSub "main".data (lowerStr label).data = false
        → hasSub "first".data (lowerStr label).data = false
        → hasSub "business".data (lowerStr label).data = false
        → canonCabin label = lowerStr label)
    ∧ processMiles [("Main Cabin", "20K")] = some [("main", 20)]
    ∧ processMiles [("Main Cabin", "20K"), ("MAIN", "25K")] = some [("main", 25)] := by
  refine ⟨?_, ?_, by decide, ?_, ?_, ?_, ?_, by decide, by decide⟩
  · have hl := processMilesFrom_lookup pairs [] m k hm
    rw [hl]
    cases lastMilesStr k pairs <;> simp [List.lookup]
  · simp [removeK, List.filter_append]
  · intro h1
    simp [canonCabin, h1]
  · intro h1 h2
    simp [canonCabin, h1, h2]
  · intro h1 h2 h3
    simp [canonCabin, h1, h2, h3]
  · intro h1 h2 h3
    simp [canonCabin, h1, h2, h3]

/-- Witness for the amended C5 at concrete pairs and labels. -/
theorem C5_mileage_buckets_witness :
    ((([("main", (20 : ℚ))] : List (String × ℚ)).lookup "main")
      = match lastMilesStr "main" [("Main Cabin", "20K")] with
        | some s => parseFloat (removeK s)
        | none => none)
    ∧ removeK ⟨['2'] ++ 'K' :: ['0']⟩ = removeK ⟨['2'] ++ ['0']⟩
    ∧ removeK "20k" = "20k"
    ∧ (hasSub "main".data (lowerStr "Main Cabin").data = true
        → canonCabin "Main Cabin" = "main")
    ∧ (hasSub "main".data (lowerStr "Main Cabin").data = false
        → hasSub "first".data (lowerStr "Main Cabin").data = true
        → canonCabin "Main Cabin" = "first")
    ∧ (hasSub "main".data (lowerStr "Main Cabin").data = false
        → hasSub "first".data (lowerStr "Main Cabin").data = false
        → hasSub "business".data (lowerStr "Main Cabin").data = true
        → canonCabin "Main Cabin" = "business")
    ∧ (hasSub "main".data (lowerStr "Main Cabin").data = false
        → hasSub "first".data (lowerStr "Main Cabin").data = false
        → hasSub "business".data (lowerStr "Main Cabin").data = false
        → canonCabin "Main Cabin" = lowerStr "Main Cabin")
    ∧ processMiles [("Main Cabin", "20K")] = some [("main", 20)]
    ∧ processMiles [("Main Cabin", "20K"), ("MAIN", "25K")] = some [("main", 25)] :=
  C5_mileage_buckets [("Main Cabin", "20K")] [("main", 20)] "main" "Main Cabin"
    ['2'] ['0'] (by decide)


/-- The departure-time comparison is transitive. -/
theorem departLe_trans : ∀ a b c : FlightRecord,
    departLe a b = true → departLe b c = true → departLe a c = true := by
  intro a b c h1 h2
  simp only [departLe, decide_eq_true_eq] at h1 h2 ⊢
  omega

/-- The departure-time comparison is total. -/
theorem departLe_total : ∀ a b : FlightRecord, (departLe a b || departLe b a) = true := by
  intro a b
  simp only [departLe, Bool.or_eq_true, decide_eq_true_eq]
  omega

/-- A stable sort never reorders a class of mutually tied elements: filtering
the sorted list by a predicate that only holds inside one tie class gives the
same list as filtering the input. -/
theorem filter_mergeSort_of_ties {α : Type} (le : α → α → Bool)
    (htrans : ∀ a b c, le a b = true → le b c = true → le a c = true)
    (htot : ∀ a b, (le a b || le b a) = true)
    (p : α → Bool) (hp : ∀ a b, p a = true → p b = true → le a b = true)
    (l : List α) : (l.mergeSort le).filter p = l.filter p := by
  have hpair : (l.filter p).Pairwise (fun a b => le a b = true) := by
    apply List.pairwise_of_forall_mem_list
    intro a ha b hb
    exact hp a b (List.of_mem_filter ha) (List.of_mem_filter hb)
  have hsub : (l.filter p).Sublist (l.mergeSort le) :=
    List.sublist_mergeSort htrans htot hpair (List.filter_sublist l)
  have hsub2 := hsub.filter p
  rw [List.filter_filter] at hsub2
  have hidem : (fun a => p a && p a) = p := by
    funext a
    exact Bool.and_self _
  rw [hidem] at hsub2
  have hperm : ((l.mergeSort le).filter p).Perm (l.filter p) :=
    (List.mergeSort_perm l le).filter p
  exact (hsub2.eq_of_length hperm.length_eq.symm).symm

/-- C6: on any batch whose records all normalize, the normalizer output is the
input's processed records sorted ascending by departure time, and the sort is
stable — each class of equal departure times keeps its original relative
order. -/
theorem C6_normalizer_sorted_stable (l : List RawFlightFields)
    (processed : List FlightRecord) (h : l.mapM processFlight = some processed) :
    process_flights l = some (processed.mergeSort departLe)
    ∧ (processed.mergeSort departLe).Pairwise
        (fun a b => a.depart_time ≤ b.depart_time)
    ∧ ∀ t, (processed.mergeSort departLe).filter (fun f => decide (f.depart_time = t))
        = processed.filter (fun f => decide (f.depart_time = t)) := by
  refine ⟨?_, ?_, ?_⟩
  · unfold process_flights
    rw [h]
  · have hp := List.sorted_mergeSort departLe_trans departLe_total processed
    refine hp.imp ?_
    intro a b hab
    simpa [departLe] using hab
  · intro t
    refine filter_mergeSort_of_ties departLe departLe_trans departLe_total _ ?_ processed
    intro a b ha hb
    simp only [decide_eq_true_eq] at ha hb
    simp [departLe, ha, hb]

/-- Witness for C6 on three concrete raw records, two of them tied on
departure time. -/
theorem C6_normalizer_sorted_stable_witness :
    [rawA, rawB, rawC].mapM processFlight = some [procA, procB, procC]
    ∧ (process_flights [rawA, rawB, rawC]
        = some ([procA, procB, procC].mergeSort departLe)
      ∧ ([procA, procB, procC].mergeSort departLe).Pairwise
          (fun a b => a.depart_time ≤ b.depart_time)
      ∧ ∀ t, ([procA, procB, procC].mergeSort departLe).filter
            (fun f => decide (f.depart_time = t))
          = [procA, procB, procC].filter (fun f => decide (f.depart_time = t))) :=
  ⟨rfl, C6_normalizer_sorted_stable [rawA, rawB, rawC] [procA, procB, procC] rfl⟩

/-- C7: a combination whose scrape raises is recorded in the error list and
contributes nothing to either collection; a combination with zero records is
recorded in the missing list and contributes nothing; and in both cases the
run simply continues with the remaining combinations. -/
theorem C7_driver_bookkeeping (mm : ℚ) (md : Nat) (dr ar : Nat × Nat) (ms : Nat)
    (scrape : Combo → ScrapeResult) (s : DriverState) (c : Combo)
    (cs : List Combo) :
    (scrape c = .error →
      driverStep mm md dr ar ms s c (scrape c)
        = { s with error_combos := s.error_combos ++ [c] })
    ∧ (scrape c = .ok [] →
      driverStep mm md dr ar ms s c (scrape c)
        = { s with missing_combos := s.missing_combos ++ [c] })
    ∧ driverRun mm md dr ar ms scrape (c :: cs) s
        = driverRun mm md dr ar ms scrape cs
            (driverStep mm md dr ar ms s c (scrape c)) := by
  refine ⟨?_, ?_, rfl⟩
  · intro h
    rw [h]
    rfl
  · intro h
    rw [h]
    rfl

/-- Witness for C7 at concrete combinations, one erroring and one empty. -/
theorem C7_driver_bookkeeping_witness :
    (driverStep 20 660 (420, 960) (720, 1320) 1 initState ("2024-01-01", "JFK", "ERR")
        (scrape0 ("2024-01-01", "JFK", "ERR"))
      = { initState with
          error_combos := initState.error_combos ++ [("2024-01-01", "JFK", "ERR")] })
    ∧ (driverStep 20 660 (420, 960) (720, 1320) 1 initState ("2024-01-01", "JFK", "EMP")
        (scrape0 ("2024-01-01", "JFK", "EMP"))
      = { initState with
          missing_combos := initState.missing_combos ++ [("2024-01-01", "JFK", "EMP")] })
    ∧ driverRun 20 660 (420, 960) (720, 1320) 1 scrape0
        (("2024-01-01", "JFK", "ERR") :: [("2024-01-01", "JFK", "LAX")]) initState
      = driverRun 20 660 (420, 960) (720, 1320) 1 scrape0 [("2024-01-01", "JFK", "LAX")]
          (driverStep 20 660 (420, 960) (720, 1320) 1 initState
            ("2024-01-01", "JFK", "ERR") (scrape0 ("2024-01-01", "JFK", "ERR"))) :=
  ⟨(C7_driver_bookkeeping 20 660 (420, 960) (720, 1320) 1 scrape0 initState
      ("2024-01-01", "JFK", "ERR") []).1 rfl,
   (C7_driver_bookkeeping 20 660 (420, 960) (720, 1320) 1 scrape0 initState
      ("2024-01-01", "JFK", "EMP") []).2.1 rfl,
   (C7_driver_bookkeeping 20 660 (420, 960) (720, 1320) 1 scrape0 initState
      ("2024-01-01", "JFK", "ERR") [("2024-01-01", "JFK", "LAX")]).2.2⟩

/-- Characters with equal code points are equal. -/
theorem charEq_of_toNat_eq {a b : Char} (h : a.toNat = b.toNat) : a = b :=
  Char.ext (UInt32.ext_iff.mpr h)

/-- Python string comparison is transitive. -/
theorem strLt_trans : ∀ as bs cs : List Char,
    strLt as bs = true → strLt bs cs = true → strLt as cs = true := by
  intro as
  induction as with
  | nil =>
    intro bs cs h1 h2
    cases bs with
    | nil => simp [strLt] at h1
    | cons b bs' =>
      cases cs with
      | nil => simp [strLt] at h2
      | cons c cs' => simp [strLt]
  | cons a as' ih =>
    intro bs cs h1 h2
    cases bs with
    | nil => simp [strLt] at h1
    | cons b bs' =>
      cases cs with
      | nil => simp [strLt] at h2
      | cons c cs' =>
        unfold strLt at h1 h2 ⊢
        split_ifs at h1 h2 ⊢ <;>
          first
            | rfl
            | exact ih bs' cs' h1 h2
            | (exfalso
               omega)

/-- Python string comparison is trichotomous. -/
theorem strLt_total_or_eq : ∀ as bs : List Char,
    strLt as bs = true ∨ as = bs ∨ strLt bs as = true := by
  intro as
  induction as with
  | nil =>
    intro bs
    cases bs <;> simp [strLt]
  | cons a as' ih =>
    intro bs
    cases bs with
    | nil => simp [strLt]
    | cons b bs' =>
      rcases Nat.lt_trichotomy a.toNat b.toNat with h | h | h
      · left
        simp [strLt, h]
      · have hab : a = b := charEq_of_toNat_eq h
        subst hab
        rcases ih bs' with h2 | h2 | h2
        · left
          simp [strLt, h2]
        · subst h2
          right
          left
          rfl
        · right
          right
          simp [strLt, h2]
      · right
        right
        simp [strLt, h, Nat.not_lt_of_gt h]

/-- The composite comparison spelled out as a proposition. -/
theorem compositeLe_iff (a b : FlightRecord) :
    compositeLe a b = true
      ↔ (strLt a.origin.data b.origin.data = true
          ∨ (a.origin.data = b.origin.data
              ∧ (strLt a.date.data b.date.data = true
                  ∨ (a.date.data = b.date.data ∧ a.depart_time ≤ b.depart_time)))) := by
  simp [compositeLe, Bool.or_eq_true, Bool.and_eq_true, decide_eq_true_eq]

/-- The composite comparison is transitive. -/
theorem compositeLe_trans : ∀ a b c : FlightRecord,
    compositeLe a b = true → compositeLe b c = true → compositeLe a c = true := by
  intro a b c h1 h2
  rw [compositeLe_iff] at h1 h2 ⊢
  rcases h1 with h1 | ⟨ho1, h1⟩
  · rcases h2 with h2 | ⟨ho2, h2⟩
    · exact Or.inl (strLt_trans _ _ _ h1 h2)
    · left
      rw [ho2] at h1
      exact h1
  · rcases h2 with h2 | ⟨ho2, h2⟩
    · left
      rw [ho1]
      exact h2
    · right
      refine ⟨ho1.trans ho2, ?_⟩
      rcases h1 with h1 | ⟨hd1, h1⟩
      · rcases h2 with h2 | ⟨hd2, h2⟩
        · exact Or.inl (strLt_trans _ _ _ h1 h2)
        · left
          rw [hd2] at h1
          exact h1
      · rcases h2 with h2 | ⟨hd2, h2⟩
        · left
          rw [hd1]
          exact h2
        · exact Or.inr ⟨hd1.trans hd2, le_trans h1 h2⟩

/-- The composite comparison is total. -/
theorem compositeLe_total : ∀ a b : FlightRecord,
    (compositeLe a b || compositeLe b a) = true := by
  intro a b
  rw [Bool.or_eq_true, compositeLe_iff, compositeLe_iff]
  rcases strLt_total_or_eq a.origin.data b.origin.data with h | h | h
  · exact Or.inl (Or.inl h)
  · rcases strLt_total_or_eq a.date.data b.date.data with h2 | h2 | h2
    · exact Or.inl (Or.inr ⟨h, Or.inl h2⟩)
    · rcases Nat.le_total a.depart_time b.depart_time with h3 | h3
      · exact Or.inl (Or.inr ⟨h, Or.inr ⟨h2, h3⟩⟩)
      · exact Or.inr (Or.inr ⟨h.symm, Or.inr ⟨h2.symm, h3⟩⟩)
    · exact Or.inr (Or.inr ⟨h.symm, Or.inl h2⟩)
  · exact Or.inr (Or.inl h)

/-- C8: after the loop, the filtered collection is (a permutation of itself)
sorted by origin, then date, then departure time — all ascending, strings
compared as Python compares them — while `all_flights` and the bookkeeping
lists are left untouched. -/
theorem C8_final_composite_sort (s : DriverState) :
    (finalizeRun s).all_filtered_flights.Pairwise
      (fun a b => strLt a.origin.data b.origin.data = true
        ∨ (a.origin = b.origin
            ∧ (strLt a.date.data b.date.data = true
                ∨ (a.date = b.date ∧ a.depart_time ≤ b.depart_time))))
    ∧ (finalizeRun s).all_filtered_flights.Perm s.all_filtered_flights
    ∧ (finalizeRun s).all_flights = s.all_flights
    ∧ (finalizeRun s).error_combos = s.error_combos
    ∧ (finalizeRun s).missing_combos = s.missing_combos := by
  refine ⟨?_, ?_, rfl, rfl, rfl⟩
  · have hp := List.sorted_mergeSort compositeLe_trans compositeLe_total
      s.all_filtered_flights
    refine hp.imp ?_
    intro a b hab
    rw [compositeLe_iff] at hab
    rcases hab with h | ⟨ho, h⟩
    · exact Or.inl h
    · refine Or.inr ⟨String.ext ho, ?_⟩
      rcases h with h | ⟨hd, h⟩
      · exact Or.inl h
      · exact Or.inr ⟨String.ext hd, h⟩
  · exact List.mergeSort_perm s.all_filtered_flights compositeLe

end AASearch
